import Mathlib

/-!
# S2P proxy protocol: verification of the wire codec and handler control flow

A shallow embedding of the `s2p` repository (a stream-oriented proxy protocol
over a peer-to-peer transport).  Bytes are modelled as `Nat` values below 256,
byte buffers as `List Nat`, and machine integers as `Nat` with explicit bounds.
The fallible parsers of `src/codec/decoder.rs` are modelled as total functions
into an explicit result type; panicking branches of the source
(`unreachable!()`, out-of-bounds `copy_to_slice`/`get_u8`/`get_u16`) are
modelled as a distinguished `panic` result.  Asynchronous operations (DNS
lookups, TCP connects, stream reads/writes) are modelled by passing their
outcome in explicitly and tracing the handler's control flow.
-/

deriving instance DecidableEq for Except

/-- Codec errors (`src/codec/types.rs`, `CodecError`).  The payload of the
`Io` variant (an `std::io::Error`) is not modelled. -/
inductive CodecError : Type
| ioErr : CodecError
| domainTooLong : Nat → CodecError
| invalidDomainEncoding : CodecError
| invalidAddressType : Nat → CodecError
| invalidStatusCode : Nat → CodecError
deriving DecidableEq

/-- The eight wire status codes (`src/message_types.rs`).  The source carries
two byte-for-byte identical enums (`ConnectStatus`/`StatusCode`, re-exported as
`ConnectStatusCode`); they are modelled once. -/
inductive StatusCode : Type
| success
| generalFailure
| connectionNotAllowed
| networkUnreachable
| hostUnreachable
| connectionRefused
| ttlExpired
| addressTypeNotSupported
deriving DecidableEq

/-- `status as u8` (the `#[repr(u8)]` discriminants). -/
def StatusCode.toByte : StatusCode → Nat
| .success => 0x00
| .generalFailure => 0x01
| .connectionNotAllowed => 0x02
| .networkUnreachable => 0x03
| .hostUnreachable => 0x04
| .connectionRefused => 0x05
| .ttlExpired => 0x06
| .addressTypeNotSupported => 0x07

/-- `impl TryFrom<u8> for StatusCode` / `for ConnectStatus`
(`src/codec/decoder.rs`): bytes `0x00..=0x07` map to the enum, anything else is
`InvalidStatusCode`. -/
def StatusCode.fromByte : Nat → Except CodecError StatusCode
| 0x00 => .ok .success
| 0x01 => .ok .generalFailure
| 0x02 => .ok .connectionNotAllowed
| 0x03 => .ok .networkUnreachable
| 0x04 => .ok .hostUnreachable
| 0x05 => .ok .connectionRefused
| 0x06 => .ok .ttlExpired
| 0x07 => .ok .addressTypeNotSupported
| b => .error (.invalidStatusCode b)

/-- A continuation byte `0x80..=0xBF` of a UTF-8 sequence. -/
def contB (b : Nat) : Bool := 0x80 ≤ b && b ≤ 0xBF

/-- UTF-8 validity of a byte sequence, exactly the check performed by Rust's
`String::from_utf8`: ASCII, two-byte `C2..DF`, three-byte with the `E0`/`ED`
shortest-form and surrogate restrictions, four-byte with the `F0`/`F4`
range restrictions. -/
def utf8Valid : List Nat → Bool
| [] => true
| b :: rest =>
  if b ≤ 0x7F then utf8Valid rest
  else if 0xC2 ≤ b && b ≤ 0xDF then
    match rest with
    | c1 :: r => contB c1 && utf8Valid r
    | [] => false
  else if b = 0xE0 then
    match rest with
    | c1 :: c2 :: r => (0xA0 ≤ c1 && c1 ≤ 0xBF) && contB c2 && utf8Valid r
    | _ => false
  else if 0xE1 ≤ b && b ≤ 0xEC then
    match rest with
    | c1 :: c2 :: r => contB c1 && contB c2 && utf8Valid r
    | _ => false
  else if b = 0xED then
    match rest with
    | c1 :: c2 :: r => (0x80 ≤ c1 && c1 ≤ 0x9F) && contB c2 && utf8Valid r
    | _ => false
  else if 0xEE ≤ b && b ≤ 0xEF then
    match rest with
    | c1 :: c2 :: r => contB c1 && contB c2 && utf8Valid r
    | _ => false
  else if b = 0xF0 then
    match rest with
    | c1 :: c2 :: c3 :: r => (0x90 ≤ c1 && c1 ≤ 0xBF) && contB c2 && contB c3 && utf8Valid r
    | _ => false
  else if 0xF1 ≤ b && b ≤ 0xF3 then
    match rest with
    | c1 :: c2 :: c3 :: r => contB c1 && contB c2 && contB c3 && utf8Valid r
    | _ => false
  else if b = 0xF4 then
    match rest with
    | c1 :: c2 :: c3 :: r => (0x80 ≤ c1 && c1 ≤ 0x8F) && contB c2 && contB c3 && utf8Valid r
    | _ => false
  else false

/-- Host of a target address (`src/message_types.rs`, `Host`).  `ipv4`/`ipv6`
carry the octet lists of `Ipv4Addr`/`Ipv6Addr` (4 resp. 16 octets for a valid
value); `domain` carries the UTF-8 bytes of the Rust `String`. -/
inductive Host : Type
| ipv4 : List Nat → Host
| ipv6 : List Nat → Host
| domain : List Nat → Host
deriving DecidableEq

/-- A well-formed `Host` value: correct octet counts, octets are bytes, and a
domain's bytes are valid UTF-8 (guaranteed by Rust's `String`). -/
def Host.validB : Host → Bool
| .ipv4 o => o.length = 4 && o.all (· < 256)
| .ipv6 o => o.length = 16 && o.all (· < 256)
| .domain d => utf8Valid d

/-- `TargetAddress { host, port }` with `port : u16`. -/
structure TargetAddress : Type where
  host : Host
  port : Nat
deriving DecidableEq

/-- A well-formed `TargetAddress`: valid host and a port that fits in `u16`. -/
def TargetAddress.validB (t : TargetAddress) : Bool :=
  t.host.validB && t.port < 65536

/-- `TcpConnectRequest { target }`.  The source's `HandshakeRequest` is the
identical structure under its pre-refactor name. -/
structure TcpConnectRequest : Type where
  target : TargetAddress
deriving DecidableEq

/-- `TcpConnectResponse { status }` (also `HandshakeResponse`). -/
structure TcpConnectResponse : Type where
  status : StatusCode
deriving DecidableEq

/-- `UdpDatagram { flow_id : u8, target, data }`. -/
structure UdpDatagram : Type where
  flow_id : Nat
  target : TargetAddress
  data : List Nat
deriving DecidableEq

/-- A well-formed `UdpDatagram`: `flow_id` fits in `u8`, target valid, payload
bytes are bytes. -/
def UdpDatagram.validB (d : UdpDatagram) : Bool :=
  d.flow_id < 256 && d.target.validB && d.data.all (· < 256)

/-- `SerializedAddress` (`src/codec/encoder.rs`): the address-type byte, the
optional domain length byte, and the raw address bytes. -/
structure SerializedAddress : Type where
  atyp : Nat
  domain_length : Option Nat
  address : List Nat
deriving DecidableEq

/-- `SerializedAddress::from_address`: IPv4 ↦ atyp 0, IPv6 ↦ atyp 1, domain ↦
atyp 2 with a length byte; a domain longer than 255 bytes is rejected with
`DomainTooLong`.  `domain.len() as u8` is the truncating cast, hence `% 256`. -/
def SerializedAddress.from_address : Host → Except CodecError SerializedAddress
| .ipv4 o => .ok ⟨0, none, o⟩
| .ipv6 o => .ok ⟨1, none, o⟩
| .domain d =>
  if d.length > 255 then .error (.domainTooLong d.length)
  else .ok ⟨2, some (d.length % 256), d⟩

/-- `put_u16`: big-endian bytes of a `u16`. -/
def putU16 (p : Nat) : List Nat := [p / 256 % 256, p % 256]

/-- `Encoder<TcpConnectRequest>::encode` into an empty buffer: atyp byte,
optional length byte, address bytes, big-endian port. -/
def TcpConnectRequestCodec.encode (req : TcpConnectRequest) : Except CodecError (List Nat) :=
  match SerializedAddress.from_address req.target.host with
  | .error e => .error e
  | .ok sa =>
    .ok ([sa.atyp] ++ (match sa.domain_length with
         | some l => [l]
         | none => []) ++ sa.address ++ putU16 req.target.port)

/-- `Encoder<TcpConnectResponse>::encode`: the single status byte. -/
def TcpConnectResponseCodec.encode (resp : TcpConnectResponse) : List Nat :=
  [resp.status.toByte]

/-- `Encoder<UdpDatagram>::encode`: flow id, atyp byte, optional length byte,
address bytes, big-endian port, then the raw payload. -/
def UdpDatagramCodec.encode (d : UdpDatagram) : Except CodecError (List Nat) :=
  match SerializedAddress.from_address d.target.host with
  | .error e => .error e
  | .ok sa =>
    .ok ([d.flow_id, sa.atyp] ++ (match sa.domain_length with
         | some l => [l]
         | none => []) ++ sa.address ++ putU16 d.target.port ++ d.data)

/-- Result of one `Decoder::decode` call on a buffer.  `needMore` is Rust's
`Ok(None)`, `done` is `Ok(Some v)`, `fail` is `Err e`; each carries the buffer
contents left behind in `src` after the call.  `panic` marks a branch where the
source would panic (`unreachable!()` or an out-of-bounds buffer read). -/
inductive DecodeOut (α : Type) : Type
| needMore : List Nat → DecodeOut α
| done : α → List Nat → DecodeOut α
| fail : CodecError → List Nat → DecodeOut α
| panic : DecodeOut α
deriving DecidableEq

/-- `usize::MAX`, used by the length calculators to force "not enough data". -/
def USIZE_MAX : Nat := 2 ^ 64 - 1

/-- `copy_to_slice` of `n` bytes: take them off the front, or panic (`none`)
when fewer are available. -/
def readBytes (n : Nat) (data : List Nat) : Option (List Nat × List Nat) :=
  if n ≤ data.length then some (data.take n, data.drop n) else none

/-- `get_u16`: two big-endian bytes off the front, or panic (`none`). -/
def getU16 (data : List Nat) : Option (Nat × List Nat) :=
  match data with
  | a :: b :: rest => some (a * 256 + b, rest)
  | _ => none

/-- `TcpConnectRequestCodec::parse_address_type`: the low two bits of the
header byte; values `0..=2` are accepted, the value `3` is
`InvalidAddressType`. -/
def TcpConnectRequestCodec.parse_address_type (header : Nat) : Except CodecError Nat :=
  let atyp := header &&& 3
  if atyp ≤ 2 then .ok atyp else .error (.invalidAddressType atyp)

/-- `TcpConnectRequestCodec::calculate_required_length`: 7 for IPv4, 19 for
IPv6; for a domain, `usize::MAX` until the length byte is present, then
`4 + domain_len`.  The `_` arm is `unreachable!()` (`none`). -/
def TcpConnectRequestCodec.calculate_required_length (src : List Nat) (atyp : Nat) :
    Option Nat :=
  match atyp with
  | 0 => some 7
  | 1 => some 19
  | 2 =>
    if src.length < 2 then some USIZE_MAX
    else some (4 + src.getD 1 0)
  | _ => none

/-- `TcpConnectRequestCodec::parse_address`: reads the address bytes off the
front of `data`.  Outer `Option` models the panics of `get_u8`/`copy_to_slice`
on a short buffer and of the `unreachable!()` arm. -/
def TcpConnectRequestCodec.parse_address (data : List Nat) (atyp : Nat) :
    Option (Except CodecError (Host × List Nat)) :=
  match atyp with
  | 0 =>
    match readBytes 4 data with
    | some (oct, rest) => some (.ok (.ipv4 oct, rest))
    | none => none
  | 1 =>
    match readBytes 16 data with
    | some (oct, rest) => some (.ok (.ipv6 oct, rest))
    | none => none
  | 2 =>
    match data with
    | [] => none
    | len :: tail =>
      match readBytes len tail with
      | some (db, rest) =>
        some (if utf8Valid db then .ok (.domain db, rest)
              else .error .invalidDomainEncoding)
      | none => none
  | _ => none

/-- `Decoder for TcpConnectRequestCodec::decode` (`src/codec/decoder.rs`):
empty buffer ↦ need-more; parse the address type, compute the required length,
need-more while short; then split off exactly `required` bytes, skip the
header byte, parse address and port. -/
def TcpConnectRequestCodec.decode (src : List Nat) : DecodeOut TcpConnectRequest :=
  if src.isEmpty then .needMore src
  else
    match TcpConnectRequestCodec.parse_address_type (src.getD 0 0) with
    | .error e => .fail e src
    | .ok atyp =>
      match TcpConnectRequestCodec.calculate_required_length src atyp with
      | none => .panic
      | some required =>
        if src.length < required then .needMore src
        else
          let data := (src.take required).drop 1
          let rest := src.drop required
          match TcpConnectRequestCodec.parse_address data atyp with
          | none => .panic
          | some (.error e) => .fail e rest
          | some (.ok (host, data2)) =>
            match getU16 data2 with
            | none => .panic
            | some (port, _) => .done ⟨⟨host, port⟩⟩ rest

/-- `Decoder for TcpConnectResponseCodec::decode`: need-more on an empty
buffer; otherwise map the first byte through `TryFrom<u8>` (failing without
advancing) and consume it. -/
def TcpConnectResponseCodec.decode (src : List Nat) : DecodeOut TcpConnectResponse :=
  if src.length < 1 then .needMore src
  else
    match StatusCode.fromByte (src.getD 0 0) with
    | .error e => .fail e src
    | .ok status => .done ⟨status⟩ (src.drop 1)

/-- `UdpDatagramCodec::calculate_required_length`: once the fixed part is
present the required length is the whole buffer (`k + (len - k) = len`); while
short it is `usize::MAX`; address type `3` is `InvalidAddressType`. -/
def UdpDatagramCodec.calculate_required_length (src : List Nat) (atyp : Nat) :
    Except CodecError Nat :=
  match atyp with
  | 0 =>
    if src.length < 8 then .ok USIZE_MAX
    else .ok (8 + (src.length - 8))
  | 1 =>
    if src.length < 20 then .ok USIZE_MAX
    else .ok (20 + (src.length - 20))
  | 2 =>
    if src.length < 3 then .ok USIZE_MAX
    else
      let domain_len := src.getD 2 0
      let header_and_addr_len := 5 + domain_len
      if src.length < header_and_addr_len then .ok USIZE_MAX
      else .ok (header_and_addr_len + (src.length - header_and_addr_len))
  | _ => .error (.invalidAddressType atyp)

/-- `UdpDatagramCodec::parse_address`: as for the request codec, but the `_`
arm returns `InvalidAddressType` instead of panicking. -/
def UdpDatagramCodec.parse_address (data : List Nat) (atyp : Nat) :
    Option (Except CodecError (Host × List Nat)) :=
  match atyp with
  | 0 =>
    match readBytes 4 data with
    | some (oct, rest) => some (.ok (.ipv4 oct, rest))
    | none => none
  | 1 =>
    match readBytes 16 data with
    | some (oct, rest) => some (.ok (.ipv6 oct, rest))
    | none => none
  | 2 =>
    match data with
    | [] => none
    | len :: tail =>
      match readBytes len tail with
      | some (db, rest) =>
        some (if utf8Valid db then .ok (.domain db, rest)
              else .error .invalidDomainEncoding)
      | none => none
  | atyp => some (.error (.invalidAddressType atyp))

/-- `Decoder for UdpDatagramCodec::decode`: need-more under two bytes; flow id
and low-two-bits address type off the header; required length per
`calculate_required_length`; then split, skip the two header bytes, parse
address and port, and take every remaining byte as the payload. -/
def UdpDatagramCodec.decode (src : List Nat) : DecodeOut UdpDatagram :=
  if src.length < 2 then .needMore src
  else
    let flow_id := src.getD 0 0
    let atyp := src.getD 1 0 &&& 3
    match UdpDatagramCodec.calculate_required_length src atyp with
    | .error e => .fail e src
    | .ok required =>
      if src.length < required then .needMore src
      else
        let data := (src.take required).drop 2
        let rest := src.drop required
        match UdpDatagramCodec.parse_address data atyp with
        | none => .panic
        | some (.error e) => .fail e rest
        | some (.ok (host, data2)) =>
          match getU16 data2 with
          | none => .panic
          | some (port, data3) => .done ⟨flow_id, ⟨host, port⟩, data3⟩ rest

/-- The domain-length side condition for serializability: a domain of more
than 255 bytes cannot be encoded (`DomainTooLong`). -/
def domainLenOk : Host → Bool
| .domain d => d.length ≤ 255
| _ => true

/-- `impl From<CodecError> for ConnectStatusCode`
(`src/iroh/tcp_handler.rs`): `DomainTooLong`/`InvalidDomainEncoding` ↦
`HostUnreachable`, `InvalidAddressType` ↦ `AddressTypeNotSupported`, and a
catch-all `_ ↦ GeneralFailure`. -/
def connectStatusCodeOfCodecError : CodecError → StatusCode
| .domainTooLong _ => .hostUnreachable
| .invalidDomainEncoding => .hostUnreachable
| .invalidAddressType _ => .addressTypeNotSupported
| _ => .generalFailure

/-- `impl From<CodecError> for StatusCode` (`src/iroh/handler.rs`): the same
three mapped variants, but the catch-all arm is `unreachable!()` — it panics
(`none`) instead of producing a status. -/
def statusCodeOfCodecError : CodecError → Option StatusCode
| .domainTooLong _ => some .hostUnreachable
| .invalidDomainEncoding => some .hostUnreachable
| .invalidAddressType _ => some .addressTypeNotSupported
| _ => none

/-- `std::net::IpAddr` as carried by a resolved socket address. -/
inductive IpAddrM : Type
| v4 : List Nat → IpAddrM
| v6 : List Nat → IpAddrM
deriving DecidableEq

/-- `std::net::SocketAddr`. -/
structure SocketAddrM : Type where
  ip : IpAddrM
  port : Nat
deriving DecidableEq

/-- Outcome of `timeout(dns_timeout, lookup_host(addr))`: the resolver's
address list, a lookup error, or the timer elapsing. -/
inductive DnsOutcome : Type
| resolved : List SocketAddrM → DnsOutcome
| lookupErr : DnsOutcome
| elapsed : DnsOutcome
deriving DecidableEq

/-- `resolve_address` (`src/iroh/tcp_handler.rs:127-168`; the same logic is
duplicated in `src/iroh/handler.rs` and `src/iroh/udp_handler.rs`): IPv4/IPv6
hosts bypass the resolver and yield the literal socket address; a domain host
uses the lookup outcome — the first returned address on success, and
`HostUnreachable` on an empty result, a lookup error, or a timeout.  All
errors this function produces are `StreamError::ProtocolError` carrying a
status, modelled as `Except.error`. -/
def resolve_address (host : Host) (port : Nat) (dns : DnsOutcome) :
    Except StatusCode SocketAddrM :=
  match host with
  | .ipv4 o => .ok ⟨.v4 o, port⟩
  | .ipv6 o => .ok ⟨.v6 o, port⟩
  | .domain _ =>
    match dns with
    | .resolved addrs =>
      match addrs with
      | resolved :: _ => .ok resolved
      | [] => .error .hostUnreachable
    | .lookupErr => .error .hostUnreachable
    | .elapsed => .error .hostUnreachable

/-- The `std::io::ErrorKind` values distinguished by the connect error
mapping. -/
inductive IoErrorKind : Type
| connectionRefused
| timedOut
| notFound
| addrNotAvailable
| otherKind
deriving DecidableEq

/-- Outcome of `timeout(connect_timeout, TcpStream::connect(addr))`: the timer
elapsed, the OS connect failed with some error kind, or it connected. -/
inductive ConnectOutcome : Type
| elapsed : ConnectOutcome
| osErr : IoErrorKind → ConnectOutcome
| connected : ConnectOutcome
deriving DecidableEq

/-- `establish_connection_to_target` (`src/iroh/tcp_handler.rs:102-125`):
resolve the target, then connect under the connect timeout; a timer elapse is
`TTLExpired`, and OS error kinds map per the table (refused ↦
`ConnectionRefused`, timed out ↦ `TTLExpired`, not-found/
addr-not-available ↦ `HostUnreachable`, anything else ↦ `GeneralFailure`). -/
def establish_connection_to_target (req : TcpConnectRequest) (dns : DnsOutcome)
    (conn : ConnectOutcome) : Except StatusCode Unit :=
  match resolve_address req.target.host req.target.port dns with
  | .error e => .error e
  | .ok _ =>
    match conn with
    | .elapsed => .error .ttlExpired
    | .osErr .connectionRefused => .error .connectionRefused
    | .osErr .timedOut => .error .ttlExpired
    | .osErr .notFound => .error .hostUnreachable
    | .osErr .addrNotAvailable => .error .hostUnreachable
    | .osErr .otherKind => .error .generalFailure
    | .connected => .ok ()

/-- Outcome of `read_handshake_request` as the caller sees it: a stream-level
IO failure (timeout, EOF, codec IO error), a protocol error carrying the
status mapped from a codec error, or a parsed request. -/
inductive HsOutcome : Type
| ioErr : HsOutcome
| protoErr : StatusCode → HsOutcome
| okReq : TcpConnectRequest → HsOutcome
deriving DecidableEq

/-- Outcome of `establish_connection_to_target` as the caller sees it. -/
inductive EstablishOutcome : Type
| ioErr : EstablishOutcome
| protoErr : StatusCode → EstablishOutcome
| okStream : EstablishOutcome
deriving DecidableEq

/-- Result of one `framed_writer.send(response)` call. -/
inductive SendRes : Type
| sent
| failed
deriving DecidableEq

/-- Observable events of a TCP server handler run on one substream: a response
write (with its status and its result) on the send-half, and the start of the
bidirectional splice. -/
inductive Ev : Type
| respWrite : StatusCode → SendRes → Ev
| spliceStart : Ev
deriving DecidableEq

/-- `handle_stream` (`src/iroh/tcp_handler.rs:49-100`, structurally identical
to `S2pProtocol::handle_stream` in `src/iroh/handler.rs:39-85`) as the
sequence of events it performs on the substream, given the outcomes of the
handshake read, the connect phase, and the response write.  A handshake IO
error sends nothing; a protocol error sends its status and returns; on a
connected target the handler sends the success response with
`let _ = framed_writer.send(..)` — the result is discarded — and then starts
`copy_bidirectional` unconditionally. -/
def handle_stream_trace : HsOutcome → EstablishOutcome → SendRes → List Ev
| .ioErr, _, _ => []
| .protoErr s, _, r => [.respWrite s r]
| .okReq _, .ioErr, _ => []
| .okReq _, .protoErr s, r => [.respWrite s r]
| .okReq _, .okStream, r => [.respWrite .success r, .spliceStart]

/-- The `S2pProtocol` state consulted by the accept path, reduced to the one
collaborator relevant here: `node_authenticator.should_accept`, a predicate on
node ids (`src/iroh/types.rs`, `src/iroh/node_authenticator.rs`). -/
structure S2pProtocolM : Type where
  node_authenticator : Nat → Bool

/-- An accepted peer connection: the remote node id and the bidirectional
substreams the peer opens (in `accept_bi` order). -/
structure ConnModel : Type where
  peer : Nat
  substreams : List Nat

/-- `ProtocolHandler::accept` for `S2pProtocol` (`src/iroh/handler.rs:19-36`):
`while let Ok((w, r)) = connection.accept_bi().await { tokio::spawn(handle_stream) }`.
Returns the list of `should_accept` consultations made and the list of
substreams handed to `handle_stream`.  The body never touches
`p.node_authenticator`, so the consultation list is empty and every substream
is serviced. -/
def S2pProtocolM.accept_trace (_p : S2pProtocolM) (conn : ConnModel) :
    List Nat × List Nat :=
  ([], conn.substreams)

/-- `std::io::ErrorKind` values the TCP client wraps into its `Io` errors. -/
inductive IoKind : Type
| otherKind
| timedOut
| unexpectedEof
deriving DecidableEq

/-- `TcpClientError` (`src/iroh/tcp_client.rs`): `IoError`, `ProtocolError`,
`InvalidRequest`. -/
inductive TcpClientError : Type
| ioError : IoKind → TcpClientError
| protocolError : StatusCode → TcpClientError
| invalidRequest : TcpClientError
deriving DecidableEq

/-- Outcome of `connection.open_bi()`. -/
inductive OpenBiOutcome : Type
| accepted
| openFailed
deriving DecidableEq

/-- Outcome of `timeout(request_timeout, framed_writer.send(request))`. -/
inductive SendOutcome : Type
| sent
| elapsed
| sendFailed
deriving DecidableEq

/-- What `timeout(response_timeout, framed_reader.next())` produces: the timer
elapsed, the stream ended (`Ok(None)`), a transport-level IO failure surfaced
by the framed reader as `CodecError::Io`, or a one-byte response frame. -/
inductive ReadEvent : Type
| elapsed : ReadEvent
| streamEnded : ReadEvent
| transportIoErr : ReadEvent
| frameByte : Nat → ReadEvent
deriving DecidableEq

/-- `TcpClient::read_connect_response` (`src/iroh/tcp_client.rs:83-111`):
timeout ↦ `IoError(TimedOut)`; stream end ↦ `IoError(UnexpectedEof)`; *any*
codec error — including `CodecError::Io` from the transport — ↦
`InvalidRequest`; a frame byte is decoded with `TcpConnectResponseCodec`.  A
one-byte buffer never yields need-more or a panic, so those arms are
unreachable; they are mapped like the codec-error arm. -/
def read_connect_response (ev : ReadEvent) : Except TcpClientError TcpConnectResponse :=
  match ev with
  | .elapsed => .error (.ioError .timedOut)
  | .streamEnded => .error (.ioError .unexpectedEof)
  | .transportIoErr => .error .invalidRequest
  | .frameByte b =>
    match TcpConnectResponseCodec.decode [b] with
    | .done r _ => .ok r
    | _ => .error .invalidRequest

/-- `TcpClient::connect` (`src/iroh/tcp_client.rs:52-81`): open a substream
(failure ↦ `IoError(Other)`), send the request under the request timeout
(elapse ↦ `IoError(TimedOut)`, send failure ↦ `IoError(Other)`), read the
response, and turn a non-`Success` status into `ProtocolError(status)`. -/
def TcpClient.connect (ob : OpenBiOutcome) (snd : SendOutcome) (ev : ReadEvent) :
    Except TcpClientError Unit :=
  match ob with
  | .openFailed => .error (.ioError .otherKind)
  | .accepted =>
    match snd with
    | .elapsed => .error (.ioError .timedOut)
    | .sendFailed => .error (.ioError .otherKind)
    | .sent =>
      match read_connect_response ev with
      | .error e => .error e
      | .ok resp =>
        if resp.status ≠ .success then .error (.protocolError resp.status)
        else .ok ()

/-- Whether a client result is an `Io`-classified error. -/
def isIoErrorB : Except TcpClientError Unit → Bool
| .error (.ioError _) => true
| _ => false

/-- One entry of the UDP flow table (`flows : HashMap<u8, Arc<UdpSocket>>` in
`src/iroh/udp_handler.rs`) together with the `target_clone` captured by the
`listen_for_responses` pump spawned when the entry was created.  The Rust map
stores only the socket; the spawn-time target lives in the pump task's
arguments and is recorded here alongside it. -/
structure FlowEntry : Type where
  socket : Nat
  pumpTarget : TargetAddress
deriving DecidableEq

/-- State touched by `UdpProxyHandlerHandler::process_datagram`: the flow
table, a counter supplying fresh ephemeral socket ids, the flow ids whose
response pump has been spawned (in order), and the `send_to` calls performed
(socket, resolved address, payload). -/
structure UdpHandlerState : Type where
  flows : List (Nat × FlowEntry)
  nextSocket : Nat
  pumps : List Nat
  sends : List (Nat × SocketAddrM × List Nat)
deriving DecidableEq

/-- Result of `process_datagram` (the `UdpError` variants, plus the `Ok`
path and an unreachable panic marker). -/
inductive UdpResult : Type
| okDone : UdpResult
| ioErr : UdpResult
| protocolErr : StatusCode → UdpResult
| codecErr : CodecError → UdpResult
| panicked : UdpResult
deriving DecidableEq

/-- `UdpProxyHandlerHandler::process_datagram` (`src/iroh/udp_handler.rs:38-93`),
with the outcomes of socket creation and DNS resolution passed in.  Order of
operations mirrors the source: (1) `parse_udp_datagram` — a decode error is
`CodecError`, a need-more is `ProtocolError(GeneralFailure)`; (2) the flow
table block under the mutex — an existing entry's socket is reused, otherwise
a fresh socket is created, the response pump is spawned with the *current*
datagram's target, and the entry is inserted; (3) only then the target is
resolved — a failure aborts with the state changes of step 2 already made;
(4) `send_to(data, addr)`. -/
def process_datagram (st : UdpHandlerState) (bytes : List Nat) (dns : DnsOutcome)
    (sockOk : Bool) : UdpHandlerState × UdpResult :=
  match UdpDatagramCodec.decode bytes with
  | .needMore _ => (st, .protocolErr .generalFailure)
  | .fail e _ => (st, .codecErr e)
  | .panic => (st, .panicked)
  | .done d _ =>
    let acquired : Option (UdpHandlerState × Nat) :=
      match st.flows.lookup d.flow_id with
      | some entry => some (st, entry.socket)
      | none =>
        if sockOk then
          some ({ st with
                    flows := (d.flow_id, ⟨st.nextSocket, d.target⟩) :: st.flows,
                    nextSocket := st.nextSocket + 1,
                    pumps := st.pumps ++ [d.flow_id] }, st.nextSocket)
        else none
    match acquired with
    | none => (st, .ioErr)
    | some (st1, sock) =>
      match resolve_address d.target.host d.target.port dns with
      | .error s => (st1, .protocolErr s)
      | .ok addr => ({ st1 with sends := st1.sends ++ [(sock, addr, d.data)] }, .okDone)

/-- The response datagram constructed by one iteration of
`listen_for_responses` (`src/iroh/udp_handler.rs:117-167`): it stamps the
flow id and the *spawn-time* target onto the received payload. -/
def pump_response (flow_id : Nat) (pumpTarget : TargetAddress) (payload : List Nat) :
    UdpDatagram :=
  ⟨flow_id, pumpTarget, payload⟩

example : TcpConnectRequestCodec.decode [0x00, 0x7F, 0x00, 0x00, 0x01, 0x04, 0xD2] =
    .done ⟨⟨.ipv4 [127, 0, 0, 1], 1234⟩⟩ [] := by decide

example : UdpDatagramCodec.decode [0xAA, 0x00, 0x7F, 0x00, 0x00, 0x01, 0x04, 0xD2, 0x48, 0x49] =
    .done ⟨0xAA, ⟨.ipv4 [127, 0, 0, 1], 1234⟩, [0x48, 0x49]⟩ [] := by decide

example : TcpConnectRequestCodec.encode ⟨⟨.domain [0x61, 0x62], 80⟩⟩ =
    .ok [2, 2, 0x61, 0x62, 0, 80] := by decide

example : TcpConnectResponseCodec.decode [0x04] = .done ⟨.hostUnreachable⟩ [] := by decide

/-! ## Shared byte-level lemmas -/

theorem readBytes_append (l₁ l₂ : List Nat) {n : Nat} (h : l₁.length = n) :
    readBytes n (l₁ ++ l₂) = some (l₁, l₂) := by
  unfold readBytes
  rw [if_pos (by simp [List.length_append]; omega), List.take_left' h, List.drop_left' h]

theorem getU16_putU16 {p : Nat} (hp : p < 65536) (tail : List Nat) :
    getU16 (putU16 p ++ tail) = some (p, tail) := by
  show (match p / 256 % 256 :: p % 256 :: tail with
    | a :: b :: rest => some (a * 256 + b, rest)
    | _ => none) = some (p, tail)
  show some (p / 256 % 256 * 256 + p % 256, tail) = some (p, tail)
  have h : p / 256 % 256 * 256 + p % 256 = p := by omega
  rw [h]

theorem getU16_putU16_nil {p : Nat} (hp : p < 65536) :
    getU16 (putU16 p) = some (p, []) := by
  have h := getU16_putU16 hp []
  rwa [List.append_nil] at h

/-! ## Round-trip lemmas, one per frame shape -/

theorem tcpRequest_decode_ipv4 (o : List Nat) (port : Nat) (ho : o.length = 4)
    (hp : port < 65536) :
    TcpConnectRequestCodec.decode (0 :: (o ++ putU16 port)) =
      .done ⟨⟨.ipv4 o, port⟩⟩ [] := by
  have hlen : (0 :: (o ++ putU16 port)).length = 7 := by simp [putU16, ho]
  unfold TcpConnectRequestCodec.decode
  simp only [List.isEmpty_cons, Bool.false_eq_true, if_false, List.getD_cons_zero,
    TcpConnectRequestCodec.parse_address_type, show (0:Nat) &&& 3 = 0 from rfl,
    show (if (0:Nat) ≤ 2 then (Except.ok 0 : Except CodecError Nat)
          else .error (.invalidAddressType 0)) = .ok 0 from rfl,
    TcpConnectRequestCodec.calculate_required_length, hlen,
    show ¬ ((7:Nat) < 7) from by omega, if_false]
  rw [show (7:Nat) = (0 :: (o ++ putU16 port)).length from hlen.symm]
  simp only [List.take_length, List.drop_length, List.drop_one, List.tail_cons,
    TcpConnectRequestCodec.parse_address, readBytes_append o _ ho, getU16_putU16_nil hp]

theorem tcpRequest_decode_ipv6 (o : List Nat) (port : Nat) (ho : o.length = 16)
    (hp : port < 65536) :
    TcpConnectRequestCodec.decode (1 :: (o ++ putU16 port)) =
      .done ⟨⟨.ipv6 o, port⟩⟩ [] := by
  have hlen : (1 :: (o ++ putU16 port)).length = 19 := by simp [putU16, ho]
  unfold TcpConnectRequestCodec.decode
  simp only [List.isEmpty_cons, Bool.false_eq_true, if_false, List.getD_cons_zero,
    TcpConnectRequestCodec.parse_address_type, show (1:Nat) &&& 3 = 1 from rfl,
    show (if (1:Nat) ≤ 2 then (Except.ok 1 : Except CodecError Nat)
          else .error (.invalidAddressType 1)) = .ok 1 from rfl,
    TcpConnectRequestCodec.calculate_required_length, hlen,
    show ¬ ((19:Nat) < 19) from by omega, if_false]
  rw [show (19:Nat) = (1 :: (o ++ putU16 port)).length from hlen.symm]
  simp only [List.take_length, List.drop_length, List.drop_one, List.tail_cons,
    TcpConnectRequestCodec.parse_address, readBytes_append o _ ho, getU16_putU16_nil hp]

theorem tcpRequest_decode_domain (dm : List Nat) (port : Nat) (hu : utf8Valid dm = true)
    (hp : port < 65536) :
    TcpConnectRequestCodec.decode (2 :: dm.length :: (dm ++ putU16 port)) =
      .done ⟨⟨.domain dm, port⟩⟩ [] := by
  have hlen : (2 :: dm.length :: (dm ++ putU16 port)).length = 4 + dm.length := by
    simp [putU16]; omega
  unfold TcpConnectRequestCodec.decode
  simp only [List.isEmpty_cons, Bool.false_eq_true, if_false, List.getD_cons_zero,
    TcpConnectRequestCodec.parse_address_type, show (2:Nat) &&& 3 = 2 from rfl,
    show (if (2:Nat) ≤ 2 then (Except.ok 2 : Except CodecError Nat)
          else .error (.invalidAddressType 2)) = .ok 2 from rfl,
    TcpConnectRequestCodec.calculate_required_length, hlen,
    show ¬ (4 + dm.length < 2) from by omega, if_false,
    show (2 :: dm.length :: (dm ++ putU16 port)).getD 1 0 = dm.length from rfl,
    show ¬ (4 + dm.length < 4 + dm.length) from by omega]
  rw [show 4 + dm.length = (2 :: dm.length :: (dm ++ putU16 port)).length from hlen.symm]
  simp only [List.take_length, List.drop_length, List.drop_one, List.tail_cons,
    TcpConnectRequestCodec.parse_address, readBytes_append dm (putU16 port) rfl, hu,
    if_true, getU16_putU16_nil hp]

theorem udp_decode_ipv4 (f : Nat) (o : List Nat) (port : Nat) (payload : List Nat)
    (ho : o.length = 4) (hp : port < 65536) :
    UdpDatagramCodec.decode (f :: 0 :: (o ++ (putU16 port ++ payload))) =
      .done ⟨f, ⟨.ipv4 o, port⟩, payload⟩ [] := by
  have hlen : (f :: 0 :: (o ++ (putU16 port ++ payload))).length = 8 + payload.length := by
    simp [putU16, ho]; omega
  unfold UdpDatagramCodec.decode
  simp only [List.getD_cons_zero,
    show (f :: 0 :: (o ++ (putU16 port ++ payload))).getD 1 0 = 0 from rfl,
    show (0:Nat) &&& 3 = 0 from rfl,
    UdpDatagramCodec.calculate_required_length, hlen,
    show ¬ (8 + payload.length < 2) from by omega,
    show ¬ (8 + payload.length < 8) from by omega, if_false,
    show 8 + (8 + payload.length - 8) = 8 + payload.length from by omega,
    show ¬ (8 + payload.length < 8 + payload.length) from by omega]
  rw [show 8 + payload.length =
      (f :: 0 :: (o ++ (putU16 port ++ payload))).length from hlen.symm]
  simp only [List.take_length, List.drop_length,
    show List.drop 2 (f :: 0 :: (o ++ (putU16 port ++ payload))) =
      o ++ (putU16 port ++ payload) from rfl,
    UdpDatagramCodec.parse_address, readBytes_append o _ ho, getU16_putU16 hp payload]

theorem udp_decode_ipv6 (f : Nat) (o : List Nat) (port : Nat) (payload : List Nat)
    (ho : o.length = 16) (hp : port < 65536) :
    UdpDatagramCodec.decode (f :: 1 :: (o ++ (putU16 port ++ payload))) =
      .done ⟨f, ⟨.ipv6 o, port⟩, payload⟩ [] := by
  have hlen : (f :: 1 :: (o ++ (putU16 port ++ payload))).length = 20 + payload.length := by
    simp [putU16, ho]; omega
  unfold UdpDatagramCodec.decode
  simp only [List.getD_cons_zero,
    show (f :: 1 :: (o ++ (putU16 port ++ payload))).getD 1 0 = 1 from rfl,
    show (1:Nat) &&& 3 = 1 from rfl,
    UdpDatagramCodec.calculate_required_length, hlen,
    show ¬ (20 + payload.length < 2) from by omega,
    show ¬ (20 + payload.length < 20) from by omega, if_false,
    show 20 + (20 + payload.length - 20) = 20 + payload.length from by omega,
    show ¬ (20 + payload.length < 20 + payload.length) from by omega]
  rw [show 20 + payload.length =
      (f :: 1 :: (o ++ (putU16 port ++ payload))).length from hlen.symm]
  simp only [List.take_length, List.drop_length,
    show List.drop 2 (f :: 1 :: (o ++ (putU16 port ++ payload))) =
      o ++ (putU16 port ++ payload) from rfl,
    UdpDatagramCodec.parse_address, readBytes_append o _ ho, getU16_putU16 hp payload]

theorem udp_decode_domain (f : Nat) (dm : List Nat) (port : Nat) (payload : List Nat)
    (hu : utf8Valid dm = true) (hp : port < 65536) :
    UdpDatagramCodec.decode (f :: 2 :: dm.length :: (dm ++ (putU16 port ++ payload))) =
      .done ⟨f, ⟨.domain dm, port⟩, payload⟩ [] := by
  have hlen : (f :: 2 :: dm.length :: (dm ++ (putU16 port ++ payload))).length =
      5 + dm.length + payload.length := by
    simp [putU16]; omega
  unfold UdpDatagramCodec.decode
  simp only [List.getD_cons_zero,
    show (f :: 2 :: dm.length :: (dm ++ (putU16 port ++ payload))).getD 1 0 = 2 from rfl,
    show (2:Nat) &&& 3 = 2 from rfl,
    show (f :: 2 :: dm.length :: (dm ++ (putU16 port ++ payload))).getD 2 0 = dm.length
      from rfl,
    UdpDatagramCodec.calculate_required_length, hlen,
    show ¬ (5 + dm.length + payload.length < 2) from by omega,
    show ¬ (5 + dm.length + payload.length < 3) from by omega,
    show ¬ (5 + dm.length + payload.length < 5 + dm.length) from by omega, if_false,
    show 5 + dm.length + (5 + dm.length + payload.length - (5 + dm.length)) =
      5 + dm.length + payload.length from by omega,
    show ¬ (5 + dm.length + payload.length < 5 + dm.length + payload.length) from by omega]
  rw [show 5 + dm.length + payload.length =
      (f :: 2 :: dm.length :: (dm ++ (putU16 port ++ payload))).length from hlen.symm]
  simp only [List.take_length, List.drop_length,
    show List.drop 2 (f :: 2 :: dm.length :: (dm ++ (putU16 port ++ payload))) =
      dm.length :: (dm ++ (putU16 port ++ payload)) from rfl,
    UdpDatagramCodec.parse_address, readBytes_append dm _ rfl, hu, if_true,
    getU16_putU16 hp payload]

/-! ## C2: encode-then-decode round trip -/

/-- C2: for every valid `TcpConnectRequest` (domain at most 255 bytes), every
`TcpConnectResponse`, and every valid `UdpDatagram` value, encoding the value
and then decoding the resulting bytes returns the same value (and consumes the
whole frame). -/
theorem c2_encode_decode_roundtrip :
    (∀ req : TcpConnectRequest, req.target.validB = true →
        domainLenOk req.target.host = true →
        ∃ bs, TcpConnectRequestCodec.encode req = .ok bs ∧
          TcpConnectRequestCodec.decode bs = .done req []) ∧
    (∀ resp : TcpConnectResponse,
        TcpConnectResponseCodec.decode (TcpConnectResponseCodec.encode resp) =
          .done resp []) ∧
    (∀ d : UdpDatagram, d.validB = true → domainLenOk d.target.host = true →
        ∃ bs, UdpDatagramCodec.encode d = .ok bs ∧
          UdpDatagramCodec.decode bs = .done d []) := by
  refine ⟨?_, ?_, ?_⟩
  · rintro ⟨⟨host, port⟩⟩ hv hl
    simp only [TargetAddress.validB, Bool.and_eq_true, decide_eq_true_eq] at hv
    obtain ⟨hhost, hport⟩ := hv
    cases host with
    | ipv4 o =>
      simp only [Host.validB, Bool.and_eq_true, decide_eq_true_eq] at hhost
      exact ⟨_, rfl, tcpRequest_decode_ipv4 o port hhost.1 hport⟩
    | ipv6 o =>
      simp only [Host.validB, Bool.and_eq_true, decide_eq_true_eq] at hhost
      exact ⟨_, rfl, tcpRequest_decode_ipv6 o port hhost.1 hport⟩
    | domain dm =>
      simp only [Host.validB] at hhost
      simp only [domainLenOk, decide_eq_true_eq] at hl
      refine ⟨2 :: dm.length :: (dm ++ putU16 port), ?_, ?_⟩
      · have h255 : ¬ dm.length > 255 := by omega
        have hmod : dm.length % 256 = dm.length := Nat.mod_eq_of_lt (by omega)
        simp [TcpConnectRequestCodec.encode, SerializedAddress.from_address, h255, hmod]
      · exact tcpRequest_decode_domain dm port hhost hport
  · rintro ⟨s⟩
    cases s <;> rfl
  · rintro ⟨f, ⟨host, port⟩, payload⟩ hv hl
    simp only [UdpDatagram.validB, TargetAddress.validB, Bool.and_eq_true,
      decide_eq_true_eq] at hv
    obtain ⟨⟨hf, hhost, hport⟩, hdata⟩ := hv
    cases host with
    | ipv4 o =>
      simp only [Host.validB, Bool.and_eq_true, decide_eq_true_eq] at hhost
      refine ⟨f :: 0 :: (o ++ (putU16 port ++ payload)), ?_, ?_⟩
      · simp [UdpDatagramCodec.encode, SerializedAddress.from_address, List.append_assoc]
      · exact udp_decode_ipv4 f o port payload hhost.1 hport
    | ipv6 o =>
      simp only [Host.validB, Bool.and_eq_true, decide_eq_true_eq] at hhost
      refine ⟨f :: 1 :: (o ++ (putU16 port ++ payload)), ?_, ?_⟩
      · simp [UdpDatagramCodec.encode, SerializedAddress.from_address, List.append_assoc]
      · exact udp_decode_ipv6 f o port payload hhost.1 hport
    | domain dm =>
      simp only [Host.validB] at hhost
      simp only [domainLenOk, decide_eq_true_eq] at hl
      refine ⟨f :: 2 :: dm.length :: (dm ++ (putU16 port ++ payload)), ?_, ?_⟩
      · have h255 : ¬ dm.length > 255 := by omega
        have hmod : dm.length % 256 = dm.length := Nat.mod_eq_of_lt (by omega)
        simp [UdpDatagramCodec.encode, SerializedAddress.from_address, h255, hmod,
          List.append_assoc]
      · exact udp_decode_domain f dm port payload hhost hport

/-- Witness for C2 at concrete inputs: an IPv4 request, the `Success`
response, and a domain-target datagram. -/
theorem c2_encode_decode_roundtrip_witness :
    (∃ bs, TcpConnectRequestCodec.encode ⟨⟨.ipv4 [127, 0, 0, 1], 1234⟩⟩ = .ok bs ∧
      TcpConnectRequestCodec.decode bs = .done ⟨⟨.ipv4 [127, 0, 0, 1], 1234⟩⟩ []) ∧
    TcpConnectResponseCodec.decode (TcpConnectResponseCodec.encode ⟨.success⟩) =
      .done ⟨.success⟩ [] ∧
    (∃ bs, UdpDatagramCodec.encode ⟨170, ⟨.domain [115, 50, 112], 53⟩, [72, 73]⟩ =
        .ok bs ∧
      UdpDatagramCodec.decode bs =
        .done ⟨170, ⟨.domain [115, 50, 112], 53⟩, [72, 73]⟩ []) :=
  ⟨c2_encode_decode_roundtrip.1 ⟨⟨.ipv4 [127, 0, 0, 1], 1234⟩⟩ (by decide) (by decide),
   c2_encode_decode_roundtrip.2.1 ⟨.success⟩,
   c2_encode_decode_roundtrip.2.2 ⟨170, ⟨.domain [115, 50, 112], 53⟩, [72, 73]⟩
     (by decide) (by decide)⟩

theorem tcpReq_needMore_ipv4 (o : List Nat) (port m : Nat) (ho : o.length = 4)
    (hm : m < 7) :
    TcpConnectRequestCodec.decode ((0 :: (o ++ putU16 port)).take m) =
      .needMore ((0 :: (o ++ putU16 port)).take m) := by
  cases m with
  | zero => rfl
  | succ k =>
    simp only [List.take_succ_cons]
    unfold TcpConnectRequestCodec.decode
    simp only [List.isEmpty_cons, Bool.false_eq_true, if_false, List.getD_cons_zero,
      TcpConnectRequestCodec.parse_address_type, show (0:Nat) &&& 3 = 0 from rfl,
      show (if (0:Nat) ≤ 2 then (Except.ok 0 : Except CodecError Nat)
            else .error (.invalidAddressType 0)) = .ok 0 from rfl,
      TcpConnectRequestCodec.calculate_required_length]
    rw [if_pos (by simp [List.length_take, putU16, ho]; omega)]

theorem tcpReq_needMore_ipv6 (o : List Nat) (port m : Nat) (ho : o.length = 16)
    (hm : m < 19) :
    TcpConnectRequestCodec.decode ((1 :: (o ++ putU16 port)).take m) =
      .needMore ((1 :: (o ++ putU16 port)).take m) := by
  cases m with
  | zero => rfl
  | succ k =>
    simp only [List.take_succ_cons]
    unfold TcpConnectRequestCodec.decode
    simp only [List.isEmpty_cons, Bool.false_eq_true, if_false, List.getD_cons_zero,
      TcpConnectRequestCodec.parse_address_type, show (1:Nat) &&& 3 = 1 from rfl,
      show (if (1:Nat) ≤ 2 then (Except.ok 1 : Except CodecError Nat)
            else .error (.invalidAddressType 1)) = .ok 1 from rfl,
      TcpConnectRequestCodec.calculate_required_length]
    rw [if_pos (by simp [List.length_take, putU16, ho]; omega)]

theorem tcpReq_needMore_domain (dm : List Nat) (port m : Nat) (hm : m < 4 + dm.length) :
    TcpConnectRequestCodec.decode ((2 :: dm.length :: (dm ++ putU16 port)).take m) =
      .needMore ((2 :: dm.length :: (dm ++ putU16 port)).take m) := by
  match m, hm with
  | 0, _ => rfl
  | 1, _ =>
    show TcpConnectRequestCodec.decode [2] = .needMore [2]
    decide
  | (k+2), hm =>
    simp only [List.take_succ_cons]
    have hlen : (2 :: dm.length :: List.take k (dm ++ putU16 port)).length = k + 2 := by
      simp [List.length_take, putU16]; omega
    unfold TcpConnectRequestCodec.decode
    simp only [List.isEmpty_cons, Bool.false_eq_true, if_false, List.getD_cons_zero,
      TcpConnectRequestCodec.parse_address_type, show (2:Nat) &&& 3 = 2 from rfl,
      show (if (2:Nat) ≤ 2 then (Except.ok 2 : Except CodecError Nat)
            else .error (.invalidAddressType 2)) = .ok 2 from rfl,
      TcpConnectRequestCodec.calculate_required_length, hlen,
      show ∀ t : List Nat, (2 :: dm.length :: t).getD 1 0 = dm.length from fun _ => rfl,
      show ¬ (k + 2 < 2) from by omega, hm, if_true]

theorem udp_needMore_ipv4 (f : Nat) (o : List Nat) (port : Nat) (payload : List Nat)
    (m : Nat) (ho : o.length = 4) (hm : m < 8) :
    UdpDatagramCodec.decode ((f :: 0 :: (o ++ (putU16 port ++ payload))).take m) =
      .needMore ((f :: 0 :: (o ++ (putU16 port ++ payload))).take m) := by
  match m, hm with
  | 0, _ => rfl
  | 1, _ =>
    show UdpDatagramCodec.decode [f] = .needMore [f]
    unfold UdpDatagramCodec.decode
    rw [if_pos (by simp)]
  | (k+2), hm =>
    simp only [List.take_succ_cons]
    have hlen : (f :: 0 :: List.take k (o ++ (putU16 port ++ payload))).length = k + 2 := by
      simp [List.length_take, putU16, ho]; omega
    unfold UdpDatagramCodec.decode
    simp only [List.getD_cons_zero,
      show ∀ t : List Nat, (f :: 0 :: t).getD 1 0 = 0 from fun _ => rfl,
      show (0:Nat) &&& 3 = 0 from rfl,
      UdpDatagramCodec.calculate_required_length, hlen,
      show ¬ (k + 2 < 2) from by omega,
      show k + 2 < 8 from hm, if_true, if_false,
      show k + 2 < USIZE_MAX from by unfold USIZE_MAX; omega]

theorem udp_needMore_ipv6 (f : Nat) (o : List Nat) (port : Nat) (payload : List Nat)
    (m : Nat) (ho : o.length = 16) (hm : m < 20) :
    UdpDatagramCodec.decode ((f :: 1 :: (o ++ (putU16 port ++ payload))).take m) =
      .needMore ((f :: 1 :: (o ++ (putU16 port ++ payload))).take m) := by
  match m, hm with
  | 0, _ => rfl
  | 1, _ =>
    show UdpDatagramCodec.decode [f] = .needMore [f]
    unfold UdpDatagramCodec.decode
    rw [if_pos (by simp)]
  | (k+2), hm =>
    simp only [List.take_succ_cons]
    have hlen : (f :: 1 :: List.take k (o ++ (putU16 port ++ payload))).length = k + 2 := by
      simp [List.length_take, putU16, ho]; omega
    unfold UdpDatagramCodec.decode
    simp only [List.getD_cons_zero,
      show ∀ t : List Nat, (f :: 1 :: t).getD 1 0 = 1 from fun _ => rfl,
      show (1:Nat) &&& 3 = 1 from rfl,
      UdpDatagramCodec.calculate_required_length, hlen,
      show ¬ (k + 2 < 2) from by omega,
      show k + 2 < 20 from hm, if_true, if_false,
      show k + 2 < USIZE_MAX from by unfold USIZE_MAX; omega]

theorem udp_needMore_domain (f : Nat) (dm : List Nat) (port : Nat) (payload : List Nat)
    (m : Nat) (h255 : dm.length ≤ 255) (hm : m < 5 + dm.length) :
    UdpDatagramCodec.decode
        ((f :: 2 :: dm.length :: (dm ++ (putU16 port ++ payload))).take m) =
      .needMore ((f :: 2 :: dm.length :: (dm ++ (putU16 port ++ payload))).take m) := by
  match m, hm with
  | 0, _ => rfl
  | 1, _ =>
    show UdpDatagramCodec.decode [f] = .needMore [f]
    unfold UdpDatagramCodec.decode
    rw [if_pos (by simp)]
  | 2, _ =>
    show UdpDatagramCodec.decode [f, 2] = .needMore [f, 2]
    unfold UdpDatagramCodec.decode
    rw [if_neg (by simp)]
    simp only [List.getD_cons_zero,
      show ([f, 2] : List Nat).getD 1 0 = 2 from rfl,
      show (2:Nat) &&& 3 = 2 from rfl,
      UdpDatagramCodec.calculate_required_length,
      show (([f, 2] : List Nat).length < 3) = True from by simp,
      if_true,
      show ([f, 2] : List Nat).length < USIZE_MAX from by simp [USIZE_MAX],
      if_false]
  | (k+3), hm =>
    simp only [List.take_succ_cons]
    have hlen : (f :: 2 :: dm.length ::
        List.take k (dm ++ (putU16 port ++ payload))).length = k + 3 := by
      simp [List.length_take, putU16]; omega
    unfold UdpDatagramCodec.decode
    simp only [List.getD_cons_zero,
      show ∀ t : List Nat, (f :: 2 :: t).getD 1 0 = 2 from fun _ => rfl,
      show ∀ t : List Nat, (f :: 2 :: dm.length :: t).getD 2 0 = dm.length
        from fun _ => rfl,
      show (2:Nat) &&& 3 = 2 from rfl,
      UdpDatagramCodec.calculate_required_length, hlen,
      show ¬ (k + 3 < 2) from by omega,
      show ¬ (k + 3 < 3) from by omega,
      show k + 3 < 5 + dm.length from hm, if_true, if_false,
      show k + 3 < USIZE_MAX from by unfold USIZE_MAX; omega]

/-! ## C3: strict prefixes of valid frames -/

/-- C3 (amended): for every valid encoded `TcpConnectRequest` or
`TcpConnectResponse` frame, every strict prefix yields "need more"
(`Ok(None)`) with the buffer left unchanged; for a `UdpDatagram` frame this
holds exactly for prefixes shorter than the header/address/port portion
(`n - data.length` bytes) — a strict prefix at least that long instead
decodes successfully with a truncated payload. -/
theorem c3_prefix_needMore :
    (∀ (req : TcpConnectRequest) (bs : List Nat), req.target.validB = true →
        domainLenOk req.target.host = true →
        TcpConnectRequestCodec.encode req = .ok bs →
        ∀ m, m < bs.length →
          TcpConnectRequestCodec.decode (bs.take m) = .needMore (bs.take m)) ∧
    (∀ (resp : TcpConnectResponse) (m : Nat),
        m < (TcpConnectResponseCodec.encode resp).length →
        TcpConnectResponseCodec.decode ((TcpConnectResponseCodec.encode resp).take m) =
          .needMore ((TcpConnectResponseCodec.encode resp).take m)) ∧
    (∀ (d : UdpDatagram) (bs : List Nat), d.validB = true →
        domainLenOk d.target.host = true →
        UdpDatagramCodec.encode d = .ok bs →
        ∀ m, m < bs.length - d.data.length →
          UdpDatagramCodec.decode (bs.take m) = .needMore (bs.take m)) := by
  refine ⟨?_, ?_, ?_⟩
  · rintro ⟨⟨host, port⟩⟩ bs hv hl henc m hm
    simp only [TargetAddress.validB, Bool.and_eq_true, decide_eq_true_eq] at hv
    obtain ⟨hhost, hport⟩ := hv
    cases host with
    | ipv4 o =>
      simp only [Host.validB, Bool.and_eq_true, decide_eq_true_eq] at hhost
      rw [show TcpConnectRequestCodec.encode ⟨⟨.ipv4 o, port⟩⟩ =
          .ok (0 :: (o ++ putU16 port)) from rfl] at henc
      injection henc with henc
      subst henc
      refine tcpReq_needMore_ipv4 o port m hhost.1 ?_
      simp [putU16, hhost.1] at hm
      omega
    | ipv6 o =>
      simp only [Host.validB, Bool.and_eq_true, decide_eq_true_eq] at hhost
      rw [show TcpConnectRequestCodec.encode ⟨⟨.ipv6 o, port⟩⟩ =
          .ok (1 :: (o ++ putU16 port)) from rfl] at henc
      injection henc with henc
      subst henc
      refine tcpReq_needMore_ipv6 o port m hhost.1 ?_
      simp [putU16, hhost.1] at hm
      omega
    | domain dm =>
      simp only [domainLenOk, decide_eq_true_eq] at hl
      have henc2 : TcpConnectRequestCodec.encode ⟨⟨.domain dm, port⟩⟩ =
          .ok (2 :: dm.length :: (dm ++ putU16 port)) := by
        have h255 : ¬ dm.length > 255 := by omega
        have hmod : dm.length % 256 = dm.length := Nat.mod_eq_of_lt (by omega)
        simp [TcpConnectRequestCodec.encode, SerializedAddress.from_address, h255, hmod]
      rw [henc2] at henc
      injection henc with henc
      subst henc
      refine tcpReq_needMore_domain dm port m ?_
      simp [putU16] at hm
      omega
  · rintro ⟨s⟩ m hm
    cases m with
    | zero => rfl
    | succ k =>
      simp only [TcpConnectResponseCodec.encode, List.length_cons, List.length_nil] at hm
      omega
  · rintro ⟨f, ⟨host, port⟩, payload⟩ bs hv hl henc m hm
    simp only [UdpDatagram.validB, TargetAddress.validB, Bool.and_eq_true,
      decide_eq_true_eq] at hv
    obtain ⟨⟨hf, hhost, hport⟩, hdata⟩ := hv
    cases host with
    | ipv4 o =>
      simp only [Host.validB, Bool.and_eq_true, decide_eq_true_eq] at hhost
      have henc2 : UdpDatagramCodec.encode ⟨f, ⟨.ipv4 o, port⟩, payload⟩ =
          .ok (f :: 0 :: (o ++ (putU16 port ++ payload))) := by
        simp [UdpDatagramCodec.encode, SerializedAddress.from_address, List.append_assoc]
      rw [henc2] at henc
      injection henc with henc
      subst henc
      refine udp_needMore_ipv4 f o port payload m hhost.1 ?_
      simp [putU16, hhost.1] at hm
      omega
    | ipv6 o =>
      simp only [Host.validB, Bool.and_eq_true, decide_eq_true_eq] at hhost
      have henc2 : UdpDatagramCodec.encode ⟨f, ⟨.ipv6 o, port⟩, payload⟩ =
          .ok (f :: 1 :: (o ++ (putU16 port ++ payload))) := by
        simp [UdpDatagramCodec.encode, SerializedAddress.from_address, List.append_assoc]
      rw [henc2] at henc
      injection henc with henc
      subst henc
      refine udp_needMore_ipv6 f o port payload m hhost.1 ?_
      simp [putU16, hhost.1] at hm
      omega
    | domain dm =>
      simp only [domainLenOk, decide_eq_true_eq] at hl
      have henc2 : UdpDatagramCodec.encode ⟨f, ⟨.domain dm, port⟩, payload⟩ =
          .ok (f :: 2 :: dm.length :: (dm ++ (putU16 port ++ payload))) := by
        have h255 : ¬ dm.length > 255 := by omega
        have hmod : dm.length % 256 = dm.length := Nat.mod_eq_of_lt (by omega)
        simp [UdpDatagramCodec.encode, SerializedAddress.from_address, h255, hmod,
          List.append_assoc]
      rw [henc2] at henc
      injection henc with henc
      subst henc
      refine udp_needMore_domain f dm port payload m hl ?_
      simp [putU16] at hm
      omega

/-- Counterexample to C3 as stated: the valid 10-byte `UdpDatagram` frame
`AA 00 7F 00 00 01 04 D2 48 49` (flow `0xAA`, target `127.0.0.1:1234`,
payload "HI") has an 8-byte strict prefix on which decode does *not* return
"need more" — it succeeds with an empty payload, consuming the prefix. -/
theorem c3_counterexample :
    UdpDatagramCodec.encode ⟨170, ⟨.ipv4 [127, 0, 0, 1], 1234⟩, [72, 73]⟩ =
      .ok [170, 0, 127, 0, 0, 1, 4, 210, 72, 73] ∧
    ([170, 0, 127, 0, 0, 1, 4, 210, 72, 73] : List Nat).length = 10 ∧
    UdpDatagramCodec.decode (([170, 0, 127, 0, 0, 1, 4, 210, 72, 73] : List Nat).take 8) =
      .done ⟨170, ⟨.ipv4 [127, 0, 0, 1], 1234⟩, []⟩ [] := by
  refine ⟨by decide, by decide, by decide⟩

/-- Witness for C3 (amended) at concrete inputs: a 3-byte strict prefix of a
7-byte IPv4 request frame, the empty prefix of a response frame, and a 5-byte
prefix of the 10-byte UDP frame (shorter than its 8-byte header+address+port
part). -/
theorem c3_prefix_needMore_witness :
    TcpConnectRequestCodec.decode (([0, 127, 0, 0, 1, 4, 210] : List Nat).take 3) =
      .needMore (([0, 127, 0, 0, 1, 4, 210] : List Nat).take 3) ∧
    TcpConnectResponseCodec.decode ((TcpConnectResponseCodec.encode ⟨.success⟩).take 0) =
      .needMore ((TcpConnectResponseCodec.encode ⟨.success⟩).take 0) ∧
    UdpDatagramCodec.decode (([170, 0, 127, 0, 0, 1, 4, 210, 72, 73] : List Nat).take 5) =
      .needMore (([170, 0, 127, 0, 0, 1, 4, 210, 72, 73] : List Nat).take 5) :=
  ⟨c3_prefix_needMore.1 ⟨⟨.ipv4 [127, 0, 0, 1], 1234⟩⟩ [0, 127, 0, 0, 1, 4, 210]
      (by decide) (by decide) (by decide) 3 (by decide),
   c3_prefix_needMore.2.1 ⟨.success⟩ 0 (by decide),
   c3_prefix_needMore.2.2 ⟨170, ⟨.ipv4 [127, 0, 0, 1], 1234⟩, [72, 73]⟩
      [170, 0, 127, 0, 0, 1, 4, 210, 72, 73] (by decide) (by decide) (by decide)
      5 (by decide)⟩

theorem tcpReq_decode_fail_classified (src : List Nat) (e : CodecError) (rest : List Nat)
    (h : TcpConnectRequestCodec.decode src = .fail e rest) :
    e = .invalidAddressType 3 ∨ e = .invalidDomainEncoding := by
  unfold TcpConnectRequestCodec.decode at h
  split at h
  · simp at h
  · split at h
    case _ e' heq =>
      unfold TcpConnectRequestCodec.parse_address_type at heq
      simp only [] at heq
      split at heq
      · simp at heq
      case _ hgt =>
        simp only [Except.error.injEq] at heq
        injection h with h1 h2
        left
        have hle : src.getD 0 0 &&& 3 ≤ 3 := Nat.and_le_right
        rw [← h1, ← heq]
        congr 1
        omega
    case _ atyp heq =>
      simp only [] at h
      split at h
      · simp at h
      case _ required hreq =>
        split at h
        · simp at h
        · split at h
          · simp at h
          case _ res hpa =>
            injection h with h1 h2
            right
            rw [← h1]
            unfold TcpConnectRequestCodec.parse_address at hpa
            split at hpa
            · split at hpa <;> simp_all
            · split at hpa <;> simp_all
            · split at hpa
              · simp at hpa
              · split at hpa
                · split at hpa <;> simp_all
                · simp at hpa
            · simp at hpa
          case _ host data2 hpa =>
            split at h <;> simp_all

/-! ## C6: codec error to status-code mapping -/

/-- Counterexample to C6 as stated: the handler.rs conversion
(`impl From<CodecError> for StatusCode`) does not map "every other codec
error" to `GeneralFailure` — its catch-all arm is `unreachable!()`, so
converting `CodecError::Io` or an `InvalidStatusCode` panics (`none`) instead
of producing `GeneralFailure`. -/
theorem c6_counterexample :
    statusCodeOfCodecError .ioErr = none ∧
    statusCodeOfCodecError (.invalidStatusCode 8) = none ∧
    statusCodeOfCodecError .ioErr ≠ some .generalFailure := by
  refine ⟨rfl, rfl, by decide⟩

/-- C6 (amended): the tcp_handler.rs conversion is total exactly as claimed —
`DomainTooLong`/`InvalidDomainEncoding` ↦ `HostUnreachable`,
`InvalidAddressType` ↦ `AddressTypeNotSupported`, everything else
(`Io`, `InvalidStatusCode`) ↦ `GeneralFailure`.  The handler.rs conversion
agrees on the three mapped families but panics on the rest; every codec error
the request decoder can actually produce is one of the mapped ones, so on the
handshake-abort path both conversions yield the same status and no panic
occurs. -/
theorem c6_status_mapping :
    (∀ n, connectStatusCodeOfCodecError (.domainTooLong n) = .hostUnreachable) ∧
    connectStatusCodeOfCodecError .invalidDomainEncoding = .hostUnreachable ∧
    (∀ b, connectStatusCodeOfCodecError (.invalidAddressType b) =
      .addressTypeNotSupported) ∧
    connectStatusCodeOfCodecError .ioErr = .generalFailure ∧
    (∀ b, connectStatusCodeOfCodecError (.invalidStatusCode b) = .generalFailure) ∧
    (∀ n, statusCodeOfCodecError (.domainTooLong n) = some .hostUnreachable) ∧
    statusCodeOfCodecError .invalidDomainEncoding = some .hostUnreachable ∧
    (∀ b, statusCodeOfCodecError (.invalidAddressType b) =
      some .addressTypeNotSupported) ∧
    (∀ src e rest, TcpConnectRequestCodec.decode src = .fail e rest →
      statusCodeOfCodecError e = some (connectStatusCodeOfCodecError e)) := by
  refine ⟨fun _ => rfl, rfl, fun _ => rfl, rfl, fun _ => rfl, fun _ => rfl, rfl,
    fun _ => rfl, ?_⟩
  intro src e rest h
  rcases tcpReq_decode_fail_classified src e rest h with rfl | rfl <;> rfl

/-- Witness for C6 (amended): the request decoder fails on the reserved
address-type byte `0x03`, and both conversions map that error to
`AddressTypeNotSupported`. -/
theorem c6_status_mapping_witness :
    TcpConnectRequestCodec.decode [3] = .fail (.invalidAddressType 3) [3] ∧
    statusCodeOfCodecError (.invalidAddressType 3) =
      some (connectStatusCodeOfCodecError (.invalidAddressType 3)) :=
  ⟨by decide, c6_status_mapping.2.2.2.2.2.2.2.2 [3] (.invalidAddressType 3) [3] (by decide)⟩

/-! ## C10: the zero-length domain -/

/-- C10: encoding a `TargetAddress` whose host is the empty domain succeeds
(`DomainTooLong` fires only above 255 bytes), producing a frame whose length
byte is 0, and decoding that frame returns the empty domain. -/
theorem c10_empty_domain_roundtrip (port : Nat) (hp : port < 65536) :
    TcpConnectRequestCodec.encode ⟨⟨.domain [], port⟩⟩ =
      .ok [2, 0, port / 256 % 256, port % 256] ∧
    TcpConnectRequestCodec.decode [2, 0, port / 256 % 256, port % 256] =
      .done ⟨⟨.domain [], port⟩⟩ [] := by
  refine ⟨rfl, ?_⟩
  exact tcpRequest_decode_domain [] port rfl hp

/-- Witness for C10 at port 80: the frame is `02 00 00 50`. -/
theorem c10_empty_domain_roundtrip_witness :
    TcpConnectRequestCodec.encode ⟨⟨.domain [], 80⟩⟩ = .ok [2, 0, 0, 80] ∧
    TcpConnectRequestCodec.decode [2, 0, 0, 80] = .done ⟨⟨.domain [], 80⟩⟩ [] :=
  c10_empty_domain_roundtrip 80 (by decide)

/-! ## C7: resolve-and-connect status mapping -/

/-- C7: in the server's resolve-and-connect phase, IPv4/IPv6 targets bypass
the resolver; a domain target uses the first resolved address, and an empty
result, a lookup error, or a DNS timeout all yield `HostUnreachable`.  Once
resolution succeeds, a connect-timer elapse or an OS timed-out error yields
`TTLExpired`, connection-refused yields `ConnectionRefused`,
not-found/address-not-available yield `HostUnreachable`, and any other OS
connect error yields `GeneralFailure`; a resolution failure propagates its
status regardless of the connect outcome. -/
theorem c7_connect_status_mapping :
    (∀ o port dns, resolve_address (.ipv4 o) port dns = .ok ⟨.v4 o, port⟩) ∧
    (∀ o port dns, resolve_address (.ipv6 o) port dns = .ok ⟨.v6 o, port⟩) ∧
    (∀ dm port a addrs,
      resolve_address (.domain dm) port (.resolved (a :: addrs)) = .ok a) ∧
    (∀ dm port, resolve_address (.domain dm) port (.resolved []) =
      .error .hostUnreachable) ∧
    (∀ dm port, resolve_address (.domain dm) port .lookupErr =
      .error .hostUnreachable) ∧
    (∀ dm port, resolve_address (.domain dm) port .elapsed =
      .error .hostUnreachable) ∧
    (∀ req dns, (∃ a, resolve_address req.target.host req.target.port dns = .ok a) →
      establish_connection_to_target req dns .elapsed = .error .ttlExpired ∧
      establish_connection_to_target req dns (.osErr .connectionRefused) =
        .error .connectionRefused ∧
      establish_connection_to_target req dns (.osErr .timedOut) = .error .ttlExpired ∧
      establish_connection_to_target req dns (.osErr .notFound) =
        .error .hostUnreachable ∧
      establish_connection_to_target req dns (.osErr .addrNotAvailable) =
        .error .hostUnreachable ∧
      establish_connection_to_target req dns (.osErr .otherKind) =
        .error .generalFailure ∧
      establish_connection_to_target req dns .connected = .ok ()) ∧
    (∀ req dns s conn,
      resolve_address req.target.host req.target.port dns = .error s →
      establish_connection_to_target req dns conn = .error s) := by
  refine ⟨fun _ _ _ => rfl, fun _ _ _ => rfl, fun _ _ _ _ => rfl, fun _ _ => rfl,
    fun _ _ => rfl, fun _ _ => rfl, ?_, ?_⟩
  · rintro req dns ⟨a, ha⟩
    unfold establish_connection_to_target
    rw [ha]
    exact ⟨rfl, rfl, rfl, rfl, rfl, rfl, rfl⟩
  · intro req dns s conn ha
    unfold establish_connection_to_target
    rw [ha]

/-- Witness for C7: an IPv4 target with a connect-timer elapse yields
`TTLExpired`; a domain target whose lookup errors yields `HostUnreachable`
even though the connect would have succeeded. -/
theorem c7_connect_status_mapping_witness :
    establish_connection_to_target ⟨⟨.ipv4 [127, 0, 0, 1], 80⟩⟩ .lookupErr .elapsed =
      .error .ttlExpired ∧
    establish_connection_to_target ⟨⟨.domain [120], 80⟩⟩ .lookupErr .connected =
      .error .hostUnreachable :=
  ⟨(c7_connect_status_mapping.2.2.2.2.2.2.1 ⟨⟨.ipv4 [127, 0, 0, 1], 80⟩⟩ .lookupErr
      ⟨⟨.v4 [127, 0, 0, 1], 80⟩, rfl⟩).1,
   c7_connect_status_mapping.2.2.2.2.2.2.2 ⟨⟨.domain [120], 80⟩⟩ .lookupErr
      .hostUnreachable .connected rfl⟩

/-! ## C9: TCP client error classification -/

/-- Counterexample to C9 as stated: a transport-level IO failure while reading
the response (`CodecError::Io` surfaced by the framed reader) is returned as
`InvalidRequest`, not as an `Io` error — and `InvalidRequest` is therefore not
raised exactly on decode failures. -/
theorem c9_counterexample :
    TcpClient.connect .accepted .sent .transportIoErr = .error .invalidRequest ∧
    isIoErrorB (TcpClient.connect .accepted .sent .transportIoErr) = false := by
  exact ⟨rfl, rfl⟩

/-- C9 (amended): `TcpClient::connect` classifies errors as follows — open/send
transport failures and both timeouts are `Io`; the response-read stage maps a
timeout or EOF to `Io` but maps *any* framed-reader error, whether a response
frame that fails to decode or a transport-level IO failure during the read, to
`InvalidRequest`; a well-formed non-`Success` status byte is exactly
`ProtocolError(status)`, and `Success` yields the stream. -/
theorem c9_error_classification :
    (∀ snd ev, TcpClient.connect .openFailed snd ev = .error (.ioError .otherKind)) ∧
    (∀ ev, TcpClient.connect .accepted .elapsed ev = .error (.ioError .timedOut)) ∧
    (∀ ev, TcpClient.connect .accepted .sendFailed ev = .error (.ioError .otherKind)) ∧
    TcpClient.connect .accepted .sent .elapsed = .error (.ioError .timedOut) ∧
    TcpClient.connect .accepted .sent .streamEnded = .error (.ioError .unexpectedEof) ∧
    TcpClient.connect .accepted .sent .transportIoErr = .error .invalidRequest ∧
    TcpClient.connect .accepted .sent (.frameByte 0) = .ok () ∧
    (∀ b, 1 ≤ b → b ≤ 7 → ∃ s, StatusCode.fromByte b = .ok s ∧ s ≠ .success ∧
      TcpClient.connect .accepted .sent (.frameByte b) = .error (.protocolError s)) ∧
    (∀ b, 8 ≤ b → TcpClient.connect .accepted .sent (.frameByte b) =
      .error .invalidRequest) := by
  refine ⟨fun _ _ => rfl, fun _ => rfl, fun _ => rfl, rfl, rfl, rfl, rfl, ?_, ?_⟩
  · intro b h1 h7
    interval_cases b <;> exact ⟨_, rfl, by decide, rfl⟩
  · intro b hb
    obtain ⟨n, rfl⟩ : ∃ n, b = n + 8 := ⟨b - 8, by omega⟩
    rfl

/-- Witness for C9 (amended): the refused status byte `0x05` surfaces as
`ProtocolError(ConnectionRefused)`, and the undefined status byte `0x09`
surfaces as `InvalidRequest`. -/
theorem c9_error_classification_witness :
    (∃ s, StatusCode.fromByte 5 = .ok s ∧ s ≠ .success ∧
      TcpClient.connect .accepted .sent (.frameByte 5) = .error (.protocolError s)) ∧
    TcpClient.connect .accepted .sent (.frameByte 9) = .error .invalidRequest :=
  ⟨c9_error_classification.2.2.2.2.2.2.2.1 5 (by decide) (by decide),
   c9_error_classification.2.2.2.2.2.2.2.2 9 (by decide)⟩

/-! ## C1: response byte before splice -/

/-- Counterexample to C1 as stated: when the success-response write fails, the
handler still starts the splice — `let _ = framed_writer.send(..)` discards
the send result — so splice traffic is sent on the substream after a failed
response write. -/
theorem c1_counterexample :
    handle_stream_trace (.okReq ⟨⟨.ipv4 [127, 0, 0, 1], 80⟩⟩) .okStream .failed =
      [.respWrite .success .failed, .spliceStart] ∧
    Ev.spliceStart ∈
      handle_stream_trace (.okReq ⟨⟨.ipv4 [127, 0, 0, 1], 80⟩⟩) .okStream .failed := by
  exact ⟨rfl, by decide⟩

/-- C1 (amended): for every substream that reaches the send-success step,
exactly one response write is performed and it completes before any splice
byte; however, the splice starts regardless of that write's outcome — in
every trace the splice is preceded by exactly one response write, but a
failed success write does not prevent the splice. -/
theorem c1_response_before_splice :
    (∀ req r, handle_stream_trace (.okReq req) .okStream r =
      [.respWrite .success r, .spliceStart]) ∧
    (∀ hs est r, Ev.spliceStart ∈ handle_stream_trace hs est r →
      ∃ req, hs = .okReq req ∧ est = .okStream ∧
        handle_stream_trace hs est r = [.respWrite .success r, .spliceStart]) := by
  refine ⟨fun _ _ => rfl, ?_⟩
  intro hs est r hmem
  cases hs with
  | ioErr => simp [handle_stream_trace] at hmem
  | protoErr s => simp [handle_stream_trace] at hmem
  | okReq req =>
    cases est with
    | ioErr => simp [handle_stream_trace] at hmem
    | protoErr s => simp [handle_stream_trace] at hmem
    | okStream => exact ⟨req, rfl, rfl, rfl⟩

/-- Witness for C1 (amended): on the success path with a successful write, the
trace is exactly one response write followed by the splice. -/
theorem c1_response_before_splice_witness :
    ∃ req, HsOutcome.okReq ⟨⟨.ipv4 [127, 0, 0, 1], 80⟩⟩ = .okReq req ∧
      EstablishOutcome.okStream = .okStream ∧
      handle_stream_trace (.okReq ⟨⟨.ipv4 [127, 0, 0, 1], 80⟩⟩) .okStream .sent =
        [.respWrite .success .sent, .spliceStart] :=
  c1_response_before_splice.2 (.okReq ⟨⟨.ipv4 [127, 0, 0, 1], 80⟩⟩) .okStream .sent
    (by decide)

/-! ## C4: the node authenticator is never consulted -/

/-- C4: the accept path of `S2pProtocol` services every substream of every
incoming peer connection and performs no `should_accept` consultation at all —
in particular, a connection whose peer the configured authenticator rejects is
still serviced.  (The claim that `should_accept` is invoked once per
connection before dispatch fails on the code: the `node_authenticator` field
is stored but never read.) -/
theorem c4_authenticator_never_consulted :
    (∀ p conn, S2pProtocolM.accept_trace p conn = ([], conn.substreams)) ∧
    S2pProtocolM.accept_trace ⟨fun _ => false⟩ ⟨5, [0]⟩ = ([], [0]) ∧
    ((⟨fun _ => false⟩ : S2pProtocolM).node_authenticator 5 = false ∧
      (S2pProtocolM.accept_trace ⟨fun _ => false⟩ ⟨5, [0]⟩).2 ≠ []) := by
  exact ⟨fun _ _ => rfl, rfl, rfl, by decide⟩

/-! ## C5: UDP resolution failure on an unknown flow -/

/-- Counterexample to C5 as stated: a datagram for the fresh flow 7 with an
unresolvable domain target is dropped, but the flow table is *not* left
unchanged — a socket is created (`nextSocket` advances), the entry is
inserted, and a pump is spawned before resolution is attempted. -/
theorem c5_counterexample :
    process_datagram ⟨[], 0, [], []⟩ [7, 2, 1, 120, 0, 53, 1] .lookupErr true =
      (⟨[(7, ⟨0, ⟨.domain [120], 53⟩⟩)], 1, [7], []⟩, .protocolErr .hostUnreachable) ∧
    (process_datagram ⟨[], 0, [], []⟩ [7, 2, 1, 120, 0, 53, 1] .lookupErr true).1.flows ≠
      (⟨[], 0, [], []⟩ : UdpHandlerState).flows := by
  exact ⟨by decide, by decide⟩

/-- C5 (amended): for every inbound datagram whose `flow_id` is not in the
flow table and whose domain target fails to resolve (lookup error, timeout,
or no results), the payload is dropped — no `send_to` is recorded, the result
is `ProtocolError(HostUnreachable)` — but the handler has already created an
ephemeral socket, inserted the flow entry, and spawned the response pump,
because the flow-table block runs before resolution. -/
theorem c5_dns_failure_drops_after_insert (st : UdpHandlerState) (bytes : List Nat)
    (d : UdpDatagram) (rest : List Nat) (dm : List Nat) (dns : DnsOutcome)
    (hdec : UdpDatagramCodec.decode bytes = .done d rest)
    (habs : st.flows.lookup d.flow_id = none)
    (hdom : d.target.host = .domain dm)
    (hdns : dns = .lookupErr ∨ dns = .elapsed ∨ dns = .resolved []) :
    process_datagram st bytes dns true =
      ({ st with flows := (d.flow_id, ⟨st.nextSocket, d.target⟩) :: st.flows,
                 nextSocket := st.nextSocket + 1,
                 pumps := st.pumps ++ [d.flow_id] }, .protocolErr .hostUnreachable) := by
  have hres : resolve_address d.target.host d.target.port dns = .error .hostUnreachable := by
    rw [hdom]; rcases hdns with rfl | rfl | rfl <;> rfl
  unfold process_datagram
  rw [hdec]
  simp only [habs, if_true, hres]

/-- Witness for C5 (amended) on the empty state and a concrete datagram with
a DNS timeout. -/
theorem c5_dns_failure_drops_after_insert_witness :
    process_datagram ⟨[], 0, [], []⟩ [7, 2, 1, 120, 0, 53, 1] .elapsed true =
      (⟨[(7, ⟨0, ⟨.domain [120], 53⟩⟩)], 1, [7], []⟩, .protocolErr .hostUnreachable) :=
  c5_dns_failure_drops_after_insert ⟨[], 0, [], []⟩ [7, 2, 1, 120, 0, 53, 1]
    ⟨7, ⟨.domain [120], 53⟩, [1]⟩ [] [120] .elapsed (by decide) (by decide) (by decide)
    (Or.inr (Or.inl rfl))

/-! ## C8: which target the response pump echoes -/

/-- Counterexample to C8 as stated: after a second datagram on flow 1 changes
the target from `10.0.0.1:80` to `10.0.0.2:80`, the flow entry still carries
the *first* datagram's target, and the pump stamps that spawn-time target on
its responses — not the target of the most recent inbound datagram. -/
theorem c8_counterexample :
    ((process_datagram
        (process_datagram ⟨[], 0, [], []⟩ [1, 0, 10, 0, 0, 1, 0, 80]
          (.resolved []) true).1
        [1, 0, 10, 0, 0, 2, 0, 80] (.resolved []) true).1).flows.lookup 1 =
      some ⟨0, ⟨.ipv4 [10, 0, 0, 1], 80⟩⟩ ∧
    (pump_response 1 ⟨.ipv4 [10, 0, 0, 1], 80⟩ [9]).target ≠
      (⟨.ipv4 [10, 0, 0, 2], 80⟩ : TargetAddress) := by
  exact ⟨by decide, by decide⟩

/-- C8 (amended): every response datagram the pump sends for a flow carries
the target of the inbound datagram that *created* the flow entry (the pump's
spawn-time target): processing a further datagram on a live flow leaves the
flow table — and hence the recorded pump target — unchanged, and the pump
stamps exactly its spawn-time target on each response. -/
theorem c8_pump_echoes_creation_target :
    (∀ (st : UdpHandlerState) (bytes : List Nat) (d : UdpDatagram) (rest : List Nat)
        (dns : DnsOutcome) (so : Bool) (entry : FlowEntry),
      UdpDatagramCodec.decode bytes = .done d rest →
      st.flows.lookup d.flow_id = some entry →
      ((process_datagram st bytes dns so).1).flows = st.flows ∧
      ((process_datagram st bytes dns so).1).pumps = st.pumps) ∧
    (∀ (fid : Nat) (tgt : TargetAddress) (payload : List Nat),
      (pump_response fid tgt payload).target = tgt ∧
      (pump_response fid tgt payload).flow_id = fid ∧
      (pump_response fid tgt payload).data = payload) := by
  refine ⟨?_, fun _ _ _ => ⟨rfl, rfl, rfl⟩⟩
  intro st bytes d rest dns so entry hdec hlive
  unfold process_datagram
  rw [hdec]
  simp only [hlive]
  cases hres : resolve_address d.target.host d.target.port dns <;> simp [hres]

/-- Witness for C8 (amended): the second datagram on live flow 1 (target
changed to `10.0.0.2`) leaves the table unchanged, so the pump still stamps
`10.0.0.1`. -/
theorem c8_pump_echoes_creation_target_witness :
    (((process_datagram
        ⟨[(1, ⟨0, ⟨.ipv4 [10, 0, 0, 1], 80⟩⟩)], 1, [1], []⟩
        [1, 0, 10, 0, 0, 2, 0, 80] (.resolved []) true).1).flows =
      [(1, ⟨0, ⟨.ipv4 [10, 0, 0, 1], 80⟩⟩)] ∧
     ((process_datagram
        ⟨[(1, ⟨0, ⟨.ipv4 [10, 0, 0, 1], 80⟩⟩)], 1, [1], []⟩
        [1, 0, 10, 0, 0, 2, 0, 80] (.resolved []) true).1).pumps = [1]) ∧
    (pump_response 1 ⟨.ipv4 [10, 0, 0, 1], 80⟩ [9]).target =
      ⟨.ipv4 [10, 0, 0, 1], 80⟩ :=
  ⟨c8_pump_echoes_creation_target.1
      ⟨[(1, ⟨0, ⟨.ipv4 [10, 0, 0, 1], 80⟩⟩)], 1, [1], []⟩
      [1, 0, 10, 0, 0, 2, 0, 80] ⟨1, ⟨.ipv4 [10, 0, 0, 2], 80⟩, []⟩ []
      (.resolved []) true ⟨0, ⟨.ipv4 [10, 0, 0, 1], 80⟩⟩ (by decide) (by decide),
   (c8_pump_echoes_creation_target.2 1 ⟨.ipv4 [10, 0, 0, 1], 80⟩ [9]).1⟩
